import Mathlib

/-!
Verification of the rog-metadata-api NFT metadata service.

This file gives a shallow embedding, in Lean 4, of the service's core logic:

* the seeded affine permutation engine (`src/src/utils/crypto.ts`),
* the metadata resolver (`src/src/services/metadata.ts`),
* the reveal route (`POST /metadata/reveal/:tokenId` in the metadata routes file),
* the chain-reconciliation handlers (`src/src/services/nft-sync.ts`),
* the mapping generation / seed check (`src/src/services/mapping.ts`,
  `src/src/services/scheduler.ts`, `src/src/services/blockchain.ts`),
* the Phase2 bulk-add admin route (`src/src/routes/admin.ts`).

Modelling conventions: the Prisma database is a record of association lists
(`Db`); `findUnique`/`findFirst` become `List.find?`, `update`/`updateMany`
become `List.map` guarded by the where-clause, `create` appends.  JavaScript
bigint/number values are `Nat` (all values reached by the verified code paths
are non-negative).  External collaborators (keccak digests produced by
ethers' `solidityPackedKeccak256`, the chain RPC, address checksumming and
ECDSA recovery, `Math.random`) are modelled as explicit parameters at their
interface boundary.  Fallible calls return `Option`/`Except`.
-/

deriving instance DecidableEq for Except

namespace RogMetadata

/-! ## Permutation engine — `src/src/utils/crypto.ts` -/

/-- Fueled core of `gcd` from `src/src/utils/crypto.ts` (Euclid's loop
`while (y !== 0n) { [x, y] = [y, x % y] }; return x`).  The fuel only bounds
the iteration count; `gcd` below supplies fuel `y`, which we prove sufficient
(`gcdAux_eq`). -/
def gcdAux : Nat → Nat → Nat → Nat
  | _, x, 0 => x
  | 0, x, _ + 1 => x
  | fuel + 1, x, y + 1 => gcdAux fuel (y + 1) (x % (y + 1))

/-- `gcd(x, y)` from `src/src/utils/crypto.ts`. -/
def gcd (x y : Nat) : Nat := gcdAux y x y

/-- The embedded Euclid loop agrees with `Nat.gcd` once the fuel covers the
loop (the second argument strictly decreases, so `y` iterations suffice). -/
theorem gcdAux_eq : ∀ (fuel x y : Nat), y ≤ fuel → gcdAux fuel x y = Nat.gcd y x := by
  intro fuel
  induction fuel with
  | zero =>
    intro x y h
    have hy : y = 0 := Nat.le_zero.mp h
    subst hy
    simp [gcdAux]
  | succ fuel ih =>
    intro x y h
    match y with
    | 0 => simp [gcdAux]
    | y + 1 =>
      have hmod : x % (y + 1) ≤ fuel := by
        have : x % (y + 1) < y + 1 := Nat.mod_lt _ (Nat.succ_pos y)
        omega
      rw [show gcdAux (fuel + 1) x (y + 1) = gcdAux fuel (y + 1) (x % (y + 1)) from rfl,
        ih (y + 1) (x % (y + 1)) hmod, Nat.gcd_rec (y + 1) x]

theorem gcd_eq_natGcd (x y : Nat) : gcd x y = Nat.gcd y x :=
  gcdAux_eq y x y (Nat.le_refl y)

/-- The `while (gcd(a, modulus) !== 1n)` search of `derivePermutationParams`:
step `a := (a + 1) % modulus`, resetting `a := 1` when the step wraps to `0`.
Fueled; `derivePermutationParams` supplies fuel `modulus`, which we prove
sufficient (`findCoprimeAux_spec`). -/
def findCoprimeAux (modulus : Nat) : Nat → Nat → Nat
  | 0, a => a
  | fuel + 1, a =>
    if gcd a modulus = 1 then a
    else findCoprimeAux modulus fuel
      (if (a + 1) % modulus = 0 then 1 else (a + 1) % modulus)

/-- `derivePermutationParams(seed, modulus)` from `src/src/utils/crypto.ts`.
The two keccak digests `BigInt(solidityPackedKeccak256([seed, "a"]))` and
`BigInt(solidityPackedKeccak256([seed, "b"]))` are external collaborator
outputs; they are modelled as the explicit inputs `ha` and `hb`, quantified
over all values, so every 256-bit seed is covered.  Returns `none` exactly
when the source throws `Invalid modulus`. -/
def derivePermutationParams (ha hb : Nat) (modulus : Nat) : Option (Nat × Nat) :=
  if modulus ≤ 1 then none
  else
    some (findCoprimeAux modulus modulus (if ha % modulus = 0 then 1 else ha % modulus),
      hb % modulus)

/-- `calculateMetadataId(tokenId, randomSeed, maxSupply)` from
`src/src/utils/crypto.ts` (with the seed's two digests passed as `ha`, `hb`
as in `derivePermutationParams`): 1-indexed token id, permuted 0-indexed,
result re-1-indexed. -/
def calculateMetadataId (ha hb : Nat) (tokenId : Nat) (maxSupply : Nat) : Option Nat :=
  match derivePermutationParams ha hb maxSupply with
  | none => none
  | some (a, b) => some ((a * (tokenId - 1) + b) % maxSupply + 1)

theorem findCoprimeAux_one (m : Nat) : ∀ fuel, findCoprimeAux m fuel 1 = 1 := by
  intro fuel
  cases fuel with
  | zero => rfl
  | succ fuel =>
    simp [findCoprimeAux, gcd_eq_natGcd]

theorem findCoprimeAux_spec (m : Nat) (hm : 1 < m) :
    ∀ fuel a, 1 ≤ a → a < m → m - a ≤ fuel →
      1 ≤ findCoprimeAux m fuel a ∧ findCoprimeAux m fuel a < m ∧
        Nat.gcd (findCoprimeAux m fuel a) m = 1 := by
  intro fuel
  induction fuel with
  | zero => intro a h1 h2 h3; omega
  | succ fuel ih =>
    intro a h1 h2 h3
    by_cases hg : gcd a m = 1
    · rw [findCoprimeAux, if_pos hg]
      refine ⟨h1, h2, ?_⟩
      rw [gcd_eq_natGcd] at hg
      rwa [Nat.gcd_comm]
    · rw [findCoprimeAux, if_neg hg]
      rcases Nat.lt_or_ge (a + 1) m with hlt | hge
      · have hmod : (a + 1) % m = a + 1 := Nat.mod_eq_of_lt hlt
        rw [hmod, if_neg (by omega)]
        exact ih (a + 1) (by omega) hlt (by omega)
      · have heq : a + 1 = m := by omega
        have hmod : (a + 1) % m = 0 := by rw [heq]; exact Nat.mod_self m
        rw [hmod, if_pos rfl, findCoprimeAux_one m fuel]
        exact ⟨Nat.le_refl 1, hm, Nat.gcd_one_left m⟩

theorem derivePermutationParams_spec (ha hb N : Nat) (hN : 1 < N) :
    ∃ a b, derivePermutationParams ha hb N = some (a, b) ∧
      1 ≤ a ∧ a < N ∧ Nat.gcd a N = 1 ∧ b < N := by
  have hnot : ¬ N ≤ 1 := by omega
  have hN0 : 0 < N := by omega
  have ha0 : ha % N < N := Nat.mod_lt _ hN0
  have h1 : 1 ≤ (if ha % N = 0 then 1 else ha % N) := by split <;> omega
  have h2 : (if ha % N = 0 then 1 else ha % N) < N := by split <;> omega
  obtain ⟨g1, g2, g3⟩ := findCoprimeAux_spec N hN N _ h1 h2 (by omega)
  exact ⟨_, _, by rw [derivePermutationParams, if_neg hnot], g1, g2, g3, Nat.mod_lt _ hN0⟩

theorem affine_inj (a b N : Nat) (hco : Nat.gcd a N = 1) :
    ∀ i j, i < N → j < N → (a * i + b) % N = (a * j + b) % N → i = j := by
  intro i j hi hj h
  have h2 : a * i ≡ a * j [MOD N] := Nat.ModEq.add_right_cancel' b h
  have h3 : i ≡ j [MOD N] :=
    Nat.ModEq.cancel_left_of_coprime (by rwa [Nat.gcd_comm] at hco) h2
  have h4 : i % N = j % N := h3
  rwa [Nat.mod_eq_of_lt hi, Nat.mod_eq_of_lt hj] at h4

theorem affine_surj (a b N : Nat) (hN : 0 < N) (hco : Nat.gcd a N = 1) (y : Nat)
    (hy : y < N) : ∃ i, i < N ∧ (a * i + b) % N = y := by
  classical
  have hinj : Set.InjOn (fun i => (a * i + b) % N) ↑(Finset.range N) := by
    intro i hi j hj hij
    exact affine_inj a b N hco i j
      (Finset.mem_range.mp (Finset.mem_coe.mp hi))
      (Finset.mem_range.mp (Finset.mem_coe.mp hj)) hij
  have hsub : (Finset.range N).image (fun i => (a * i + b) % N) ⊆ Finset.range N := by
    intro z hz
    rcases Finset.mem_image.mp hz with ⟨i, _, rfl⟩
    exact Finset.mem_range.mpr (Nat.mod_lt _ hN)
  have hcard : (Finset.range N).card ≤
      ((Finset.range N).image (fun i => (a * i + b) % N)).card := by
    rw [Finset.card_image_of_injOn hinj]
  have heq := Finset.eq_of_subset_of_card_le hsub hcard
  have hmem : y ∈ (Finset.range N).image (fun i => (a * i + b) % N) := by
    rw [heq]; exact Finset.mem_range.mpr hy
  rcases Finset.mem_image.mp hmem with ⟨i, hi, hfi⟩
  exact ⟨i, Finset.mem_range.mp hi, hfi⟩

/-- Claim C2: for every pair of seed digests and every modulus `N > 1`,
`derivePermutationParams` succeeds with a multiplier `a` that is nonzero and
coprime to `N`; the affine map `i ↦ (a*i + b) % N` is a bijection of
`{0, …, N-1}` (its values over `List.range N` are pairwise distinct and cover
every residue); `calculateMetadataId` restricted to token ids `1..N` is a
permutation of `1..N`; and `derivePermutationParams` fails for any
modulus `≤ 1`. -/
theorem derivePermutationParams_bijection (ha hb N : Nat) (hN : 1 < N) :
    ∃ a b, derivePermutationParams ha hb N = some (a, b) ∧
      a ≠ 0 ∧ Nat.gcd a N = 1 ∧ b < N ∧
      ((List.range N).map (fun i => (a * i + b) % N)).Nodup ∧
      (∀ y, y < N → y ∈ (List.range N).map (fun i => (a * i + b) % N)) ∧
      (∀ t, 1 ≤ t → t ≤ N →
        calculateMetadataId ha hb t N = some ((a * (t - 1) + b) % N + 1) ∧
        1 ≤ (a * (t - 1) + b) % N + 1 ∧ (a * (t - 1) + b) % N + 1 ≤ N) ∧
      (∀ t₁ t₂, 1 ≤ t₁ → t₁ ≤ N → 1 ≤ t₂ → t₂ ≤ N →
        calculateMetadataId ha hb t₁ N = calculateMetadataId ha hb t₂ N → t₁ = t₂) ∧
      (∀ m, 1 ≤ m → m ≤ N → ∃ t, 1 ≤ t ∧ t ≤ N ∧ calculateMetadataId ha hb t N = some m) ∧
      (∀ m, m ≤ 1 → derivePermutationParams ha hb m = none) := by
  obtain ⟨a, b, hsome, ha1, haN, hco, hbN⟩ := derivePermutationParams_spec ha hb N hN
  have hN0 : 0 < N := by omega
  refine ⟨a, b, hsome, by omega, hco, hbN, ?_, ?_, ?_, ?_, ?_, ?_⟩
  · exact List.Nodup.map_on
      (fun i hi j hj hij => affine_inj a b N hco i j
        (List.mem_range.mp hi) (List.mem_range.mp hj) hij)
      (List.nodup_range N)
  · intro y hy
    obtain ⟨i, hiN, hfi⟩ := affine_surj a b N hN0 hco y hy
    exact List.mem_map.mpr ⟨i, List.mem_range.mpr hiN, hfi⟩
  · intro t _ _
    refine ⟨by rw [calculateMetadataId, hsome], by omega, ?_⟩
    have := Nat.mod_lt (a * (t - 1) + b) hN0
    omega
  · intro t₁ t₂ h1 h1' h2 h2' heq
    rw [calculateMetadataId, hsome, calculateMetadataId, hsome] at heq
    have heq' : (a * (t₁ - 1) + b) % N = (a * (t₂ - 1) + b) % N := by
      have := Option.some.inj heq
      omega
    have := affine_inj a b N hco (t₁ - 1) (t₂ - 1) (by omega) (by omega) heq'
    omega
  · intro m hm1 hmN
    obtain ⟨i, hiN, hfi⟩ := affine_surj a b N hN0 hco (m - 1) (by omega)
    refine ⟨i + 1, by omega, by omega, ?_⟩
    rw [calculateMetadataId, hsome]
    show some ((a * (i + 1 - 1) + b) % N + 1) = some m
    have hi1 : i + 1 - 1 = i := by omega
    rw [hi1, hfi]
    congr 1
    omega
  · intro m hm
    rw [derivePermutationParams, if_pos hm]

/-- Witness for C2 at digests `(5, 7)` and modulus `10` (where the search
yields `a = 7`, `b = 7`). -/
theorem derivePermutationParams_bijection_witness :
    (1 : Nat) < 10 ∧
    (∃ a b, derivePermutationParams 5 7 10 = some (a, b) ∧
      a ≠ 0 ∧ Nat.gcd a 10 = 1 ∧ b < 10 ∧
      ((List.range 10).map (fun i => (a * i + b) % 10)).Nodup ∧
      (∀ y, y < 10 → y ∈ (List.range 10).map (fun i => (a * i + b) % 10)) ∧
      (∀ t, 1 ≤ t → t ≤ 10 →
        calculateMetadataId 5 7 t 10 = some ((a * (t - 1) + b) % 10 + 1) ∧
        1 ≤ (a * (t - 1) + b) % 10 + 1 ∧ (a * (t - 1) + b) % 10 + 1 ≤ 10) ∧
      (∀ t₁ t₂, 1 ≤ t₁ → t₁ ≤ 10 → 1 ≤ t₂ → t₂ ≤ 10 →
        calculateMetadataId 5 7 t₁ 10 = calculateMetadataId 5 7 t₂ 10 → t₁ = t₂) ∧
      (∀ m, 1 ≤ m → m ≤ 10 → ∃ t, 1 ≤ t ∧ t ≤ 10 ∧ calculateMetadataId 5 7 t 10 = some m) ∧
      (∀ m, m ≤ 1 → derivePermutationParams 5 7 m = none)) :=
  ⟨by decide, derivePermutationParams_bijection 5 7 10 (by decide)⟩

/-! ## Data model — Prisma schema (`prisma/migrations/..._init/migration.sql`)

Each table row becomes a structure; `metadata` JSON documents are opaque to
every verified operation, so they are carried as plain strings. -/

/-- A row of `NftInfo` (the spec's NftRecord; `metadataId` is the spec's
`metadataSlotId`). -/
structure NftRecord where
  tokenId : Nat
  metadataId : Option Nat
  userAddress : String
  boxTypeId : Nat
  originId : Nat
  createdAt : Nat
deriving Repr, DecidableEq

/-- A row of `OriginMetadataInfo`. -/
structure OriginMetadataRow where
  originId : Nat
  boxTypeId : Nat
  metadata : String
  isAssigned : Bool
deriving Repr, DecidableEq

/-- A row of `UnrevealMetadataInfo`. -/
structure UnrevealMetadataRow where
  boxTypeId : Nat
  metadata : String
deriving Repr, DecidableEq

/-- A row of `Phase2Holders`. -/
structure Phase2Holder where
  id : Nat
  userAddress : String
  boxTypeId : Nat
  signature : Option String
deriving Repr, DecidableEq

/-- A row of `RandomSeedInfo` (`randomSeed` is stored as the decimal string
of the bigint; modelled as the Nat it denotes). -/
structure RandomSeedRow where
  id : Nat
  randomSeed : Nat
  syncedAt : Nat
  mappingsGenerated : Bool
deriving Repr, DecidableEq

/-- A row of `SyncStatus`. -/
structure SyncStatusRow where
  syncType : String
  lastProcessedBlock : Nat
deriving Repr, DecidableEq

/-- The Prisma database: one association list per table. -/
structure Db where
  nftInfo : List NftRecord
  originMetadataInfo : List OriginMetadataRow
  unrevealMetadataInfo : List UnrevealMetadataRow
  phase2Holders : List Phase2Holder
  randomSeedInfo : List RandomSeedRow
  syncStatus : List SyncStatusRow
deriving Repr, DecidableEq

/-! ## Metadata resolver — `src/src/services/metadata.ts` -/

/-- Failure kinds of the resolver; `tokenNotFound` models `getTokenMetadata`
returning `null` (mapped to a 404 by the route), the others model the thrown
`Error`s. -/
inductive MetaError where
  | tokenNotFound
  | blindBoxNotFound (boxTypeId : Nat)
  | originNotFound (originId : Nat)
deriving Repr, DecidableEq

/-- `MetadataService.getBlindBoxMetadata` (lines 52–62): returns the
`UnrevealMetadataInfo` row's document, throwing when no row exists for the
box type. -/
def getBlindBoxMetadata (db : Db) (boxTypeId : Nat) : Except MetaError String :=
  match db.unrevealMetadataInfo.find? (fun u => u.boxTypeId == boxTypeId) with
  | some u => .ok u.metadata
  | none => .error (.blindBoxNotFound boxTypeId)

/-- `MetadataService.getRevealedMetadata` (lines 64–74). -/
def getRevealedMetadata (db : Db) (originId : Nat) : Except MetaError String :=
  match db.originMetadataInfo.find? (fun o => o.originId == originId) with
  | some o => .ok o.metadata
  | none => .error (.originNotFound originId)

/-- `MetadataService.getTokenMetadata` (lines 33–50).  Note: the source
unconditionally returns `getBlindBoxMetadata(nftInfo.boxTypeId)`; the
`originId`-branching logic is present only as a commented-out `TODO` block,
and this embedding reproduces the live code path. -/
def getTokenMetadata (db : Db) (tokenId : Nat) : Except MetaError String :=
  match db.nftInfo.find? (fun r => r.tokenId == tokenId) with
  | none => .error .tokenNotFound
  | some nftInfo => getBlindBoxMetadata db nftInfo.boxTypeId

/-- Claim C1 (code bug, demonstrated): for a token whose record is revealed
(`originId = 5 > 0`), `getTokenMetadata` still returns the blind-box
document of the record's box type, not the revealed `OriginMetadata`
document that `getRevealedMetadata` resolves for origin 5 — the revealed
branch of the resolver is commented out as a `TODO` in the source. -/
theorem getTokenMetadata_ignores_revealed_origin :
    (getTokenMetadata
      { nftInfo := [{ tokenId := 1, metadataId := none, userAddress := "0xA",
                      boxTypeId := 0, originId := 5, createdAt := 0 }],
        originMetadataInfo := [{ originId := 5, boxTypeId := 0,
                                 metadata := "revealed-art", isAssigned := true }],
        unrevealMetadataInfo := [{ boxTypeId := 0, metadata := "blind-box" }],
        phase2Holders := [], randomSeedInfo := [], syncStatus := [] } 1
      = Except.ok "blind-box") ∧
    (getRevealedMetadata
      { nftInfo := [{ tokenId := 1, metadataId := none, userAddress := "0xA",
                      boxTypeId := 0, originId := 5, createdAt := 0 }],
        originMetadataInfo := [{ originId := 5, boxTypeId := 0,
                                 metadata := "revealed-art", isAssigned := true }],
        unrevealMetadataInfo := [{ boxTypeId := 0, metadata := "blind-box" }],
        phase2Holders := [], randomSeedInfo := [], syncStatus := [] } 5
      = Except.ok "revealed-art") ∧
    ("blind-box" : String) ≠ "revealed-art" := by
  refine ⟨rfl, rfl, ?_⟩
  decide

/-! ## Shared list lemmas for the association-list database -/

theorem find?_map_comm {α : Type} (l : List α) (f : α → α) (p : α → Bool)
    (hf : ∀ x, p (f x) = p x) : (l.map f).find? p = (l.find? p).map f := by
  induction l with
  | nil => rfl
  | cons a t ih =>
    by_cases h : p a = true
    · rw [List.map_cons, List.find?_cons_of_pos _ (by rw [hf]; exact h),
        List.find?_cons_of_pos _ h, Option.map_some']
    · rw [List.map_cons, List.find?_cons_of_neg _ (by rw [hf]; simpa using h),
        List.find?_cons_of_neg _ h, ih]

theorem map_eq_self_of {α : Type} {l : List α} {f : α → α}
    (h : ∀ x ∈ l, f x = x) : l.map f = l := by
  induction l with
  | nil => rfl
  | cons a t ih =>
    rw [List.map_cons, h a (List.mem_cons_self a t),
      ih (fun x hx => h x (List.mem_cons_of_mem a hx))]

theorem getD_mem {α : Type} (l : List α) (i : Nat) (d : α) (h : i < l.length) :
    l.getD i d ∈ l := by
  rw [List.getD_eq_getElem?_getD, List.getElem?_eq_getElem h, Option.getD_some]
  exact List.getElem_mem h

theorem find?_append_right {α : Type} {l₁ l₂ : List α} {p : α → Bool}
    (h : l₁.find? p = none) : (l₁ ++ l₂).find? p = l₂.find? p := by
  induction l₁ with
  | nil => rfl
  | cons a t ih =>
    have hp : ¬ p a = true := by
      have := List.find?_eq_none.mp h a (List.mem_cons_self a t)
      simpa using this
    rw [List.cons_append, List.find?_cons_of_neg _ hp]
    apply ih
    rw [List.find?_cons_of_neg _ hp] at h
    exact h

/-! ## Chain reconciliation — `src/src/services/nft-sync.ts`

The blockchain RPC is a collaborator: block timestamps arrive as an
`Option Nat` (`none` models both a missing block number and a
`getBlockTimestamp` failure, which the source treats identically via its
catch/else fallbacks), and the public-sale start time
(`MINT_CONFIG.publicStartTime`, seconds) is an explicit parameter. -/

/-- `boxTypeId` classification of `NftSyncService.handleMintEvent`
(lines 134–188): strictly after the public start time ⇒ `3`; otherwise the
first `Phase2Holders` row for the recipient decides, defaulting to `3`. -/
def classifyBoxTypeId (db : Db) (toAddr : String) (blockTimestamp : Option Nat)
    (publicStartTime : Nat) : Nat :=
  match blockTimestamp with
  | some ts =>
    if ts > publicStartTime then 3
    else
      match db.phase2Holders.find? (fun h => h.userAddress == toAddr) with
      | some holder => holder.boxTypeId
      | none => 3
  | none =>
    match db.phase2Holders.find? (fun h => h.userAddress == toAddr) with
    | some holder => holder.boxTypeId
    | none => 3

/-- `NftSyncService.handleMintEvent` (lines 130–227): classify the box type,
then upsert the `NftInfo` row — update only `userAddress`/`boxTypeId` when a
row exists (and only when one of them differs), create a fresh unrevealed
row otherwise (`now` models `new Date()`). -/
def handleMintEvent (db : Db) (toAddr : String) (tokenId : Nat)
    (blockTimestamp : Option Nat) (publicStartTime : Nat) (now : Nat) : Db :=
  match db.nftInfo.find? (fun r => r.tokenId == tokenId) with
  | some existing =>
    if existing.userAddress ≠ toAddr ∨
        existing.boxTypeId ≠ classifyBoxTypeId db toAddr blockTimestamp publicStartTime then
      { db with nftInfo := db.nftInfo.map (fun r =>
          if r.tokenId == tokenId then
            { r with userAddress := toAddr,
                     boxTypeId := classifyBoxTypeId db toAddr blockTimestamp publicStartTime }
          else r) }
    else db
  | none =>
    { db with nftInfo := db.nftInfo ++
        [{ tokenId := tokenId, metadataId := none, userAddress := toAddr,
           boxTypeId := classifyBoxTypeId db toAddr blockTimestamp publicStartTime,
           originId := 0, createdAt := now }] }

/-- `NftSyncService.handleOwnershipTransfer` (lines 232–255):
`updateMany where { tokenId, userAddress: from } set userAddress := to`,
returning the affected-row count. -/
def handleOwnershipTransfer (db : Db) (fromAddr toAddr : String) (tokenId : Nat) :
    Db × Nat :=
  ({ db with nftInfo := db.nftInfo.map (fun r =>
      if r.tokenId == tokenId && r.userAddress == fromAddr then
        { r with userAddress := toAddr }
      else r) },
   (db.nftInfo.filter (fun r => r.tokenId == tokenId && r.userAddress == fromAddr)).length)

/-- `NftSyncService.updateLastProcessedBlock` (lines 260–280): upsert of the
single `transfer_events` row of `SyncStatus`. -/
def updateLastProcessedBlock (db : Db) (blockNumber : Nat) : Db :=
  if db.syncStatus.any (fun s => s.syncType == "transfer_events") then
    { db with syncStatus := db.syncStatus.map (fun s =>
        if s.syncType == "transfer_events" then
          { s with lastProcessedBlock := blockNumber }
        else s) }
  else
    { db with syncStatus := db.syncStatus ++
        [{ syncType := "transfer_events", lastProcessedBlock := blockNumber }] }

/-- A decoded `Transfer(from, to, tokenId)` log, as returned by
`BlockchainService.getTransferEvents`. -/
structure TransferEvent where
  fromAddr : String
  toAddr : String
  tokenId : Nat
  blockNumber : Nat
deriving Repr, DecidableEq

/-- The `{processed, mints, transfers, errors}` counters of
`syncHistoricalEvents`. -/
structure SyncCounts where
  processed : Nat
  mints : Nat
  transfers : Nat
  errors : Nat
deriving Repr, DecidableEq

/-- `viem`'s `zeroAddress` constant. -/
def zeroAddress : String := "0x0000000000000000000000000000000000000000"

/-- The per-event `try { … } catch { errors++ }` loop of
`NftSyncService.syncHistoricalEvents` (lines 309–326).  The body of the
`try` block — `handleMintEvent` / `handleOwnershipTransfer` together with
the fallible persistence and RPC calls they issue — is abstracted as
`handleEvent`, whose failure models a thrown per-event error. -/
def syncEventsLoop (handleEvent : Db → TransferEvent → Except Unit Db) :
    Db → SyncCounts → List TransferEvent → Db × SyncCounts
  | db, c, [] => (db, c)
  | db, c, e :: rest =>
    match handleEvent db e with
    | .ok db' =>
      if e.fromAddr == zeroAddress then
        syncEventsLoop handleEvent db'
          { c with mints := c.mints + 1, processed := c.processed + 1 } rest
      else
        syncEventsLoop handleEvent db'
          { c with transfers := c.transfers + 1, processed := c.processed + 1 } rest
    | .error _ => syncEventsLoop handleEvent db { c with errors := c.errors + 1 } rest

/-- `NftSyncService.syncHistoricalEvents` (lines 285–339), after the event
query succeeded with `events` over a range ending at `endBlock`: run the
per-event loop, then unconditionally persist `endBlock` as the last
processed block. -/
def syncHistoricalEvents (handleEvent : Db → TransferEvent → Except Unit Db)
    (db : Db) (events : List TransferEvent) (endBlock : Nat) : Db × SyncCounts :=
  let r := syncEventsLoop handleEvent db ⟨0, 0, 0, 0⟩ events
  (updateLastProcessedBlock r.1 endBlock, r.2)

/-- The `startBlock = fromBlock || this.lastProcessedBlock` resumption rule
of `syncHistoricalEvents` (line 295), reading the persisted `SyncStatus` row
(0, a falsy block argument, falls back to the stored value). -/
def resumeStartBlock (db : Db) (fromBlock : Option Nat) : Nat :=
  match fromBlock with
  | some b =>
    if b = 0 then
      match db.syncStatus.find? (fun s => s.syncType == "transfer_events") with
      | some s => s.lastProcessedBlock
      | none => 0
    else b
  | none =>
    match db.syncStatus.find? (fun s => s.syncType == "transfer_events") with
    | some s => s.lastProcessedBlock
    | none => 0

/-! ### Mint-event upsert lemmas -/

theorem handleMintEvent_existing_cases (db : Db) (toAddr : String) (tokenId : Nat)
    (bts : Option Nat) (ps now : Nat) (existing : NftRecord)
    (hfind : db.nftInfo.find? (fun r => r.tokenId == tokenId) = some existing) :
    ∃ r', (handleMintEvent db toAddr tokenId bts ps now).nftInfo.find?
        (fun r => r.tokenId == tokenId) = some r' ∧
      r'.originId = existing.originId ∧ r'.metadataId = existing.metadataId ∧
      r'.createdAt = existing.createdAt ∧ r'.tokenId = existing.tokenId ∧
      r'.userAddress = toAddr ∧
      r'.boxTypeId = classifyBoxTypeId db toAddr bts ps ∧
      (existing.userAddress = toAddr →
        existing.boxTypeId = classifyBoxTypeId db toAddr bts ps →
        handleMintEvent db toAddr tokenId bts ps now = db) := by
  have hkey := List.find?_some hfind
  have hkey' : existing.tokenId = tokenId := by simpa using hkey
  by_cases hc : existing.userAddress ≠ toAddr ∨
      existing.boxTypeId ≠ classifyBoxTypeId db toAddr bts ps
  · have heq : handleMintEvent db toAddr tokenId bts ps now =
        { db with nftInfo := db.nftInfo.map (fun r =>
            if r.tokenId == tokenId then
              { r with userAddress := toAddr,
                       boxTypeId := classifyBoxTypeId db toAddr bts ps }
            else r) } := by
      simp only [handleMintEvent, hfind, if_pos hc]
    use { existing with userAddress := toAddr, boxTypeId := classifyBoxTypeId db toAddr bts ps }
    refine ⟨?_, rfl, rfl, rfl, rfl, rfl, rfl, ?_⟩
    · rw [heq]
      show (db.nftInfo.map _).find? _ = _
      rw [find?_map_comm _ _ _ (fun x => by by_cases hx : (x.tokenId == tokenId) = true <;>
        simp [hx]), hfind, Option.map_some']
      simp [hkey]
    · intro h1 h2
      rcases hc with hc | hc
      · exact absurd h1 hc
      · exact absurd h2 hc
  · push_neg at hc
    have heq : handleMintEvent db toAddr tokenId bts ps now = db := by
      simp only [handleMintEvent, hfind, if_neg]
      split
      · next hcc => exact absurd hcc (by push_neg; exact hc)
      · rfl
    exact ⟨existing, by rw [heq]; exact hfind, rfl, rfl, rfl, rfl, hc.1, hc.2,
      fun _ _ => heq⟩

theorem handleMintEvent_create_case (db : Db) (toAddr : String) (tokenId : Nat)
    (bts : Option Nat) (ps now : Nat)
    (hfind : db.nftInfo.find? (fun r => r.tokenId == tokenId) = none) :
    (handleMintEvent db toAddr tokenId bts ps now).nftInfo.find?
        (fun r => r.tokenId == tokenId)
      = some { tokenId := tokenId, metadataId := none, userAddress := toAddr,
               boxTypeId := classifyBoxTypeId db toAddr bts ps,
               originId := 0, createdAt := now } := by
  have heq : handleMintEvent db toAddr tokenId bts ps now =
      { db with nftInfo := db.nftInfo ++
          [{ tokenId := tokenId, metadataId := none, userAddress := toAddr,
             boxTypeId := classifyBoxTypeId db toAddr bts ps,
             originId := 0, createdAt := now }] } := by
    simp only [handleMintEvent, hfind]
  rw [heq]
  show (db.nftInfo ++ _).find? _ = _
  rw [find?_append_right hfind]
  simp [List.find?]

/-- Claim C9: a mint event that arrives for an already-recorded `tokenId`
updates only `userAddress` and `boxTypeId` (and performs no write at all
when neither differs); `originId`, `metadataSlotId` (`metadataId`) and
`createdAt` are untouched, so a replayed mint never un-reveals a token. -/
theorem handleMintEvent_existing_frame (db : Db) (toAddr : String) (tokenId : Nat)
    (bts : Option Nat) (publicStartTime now : Nat) (existing : NftRecord)
    (hfind : db.nftInfo.find? (fun r => r.tokenId == tokenId) = some existing) :
    ∃ r', (handleMintEvent db toAddr tokenId bts publicStartTime now).nftInfo.find?
        (fun r => r.tokenId == tokenId) = some r' ∧
      r'.originId = existing.originId ∧ r'.metadataId = existing.metadataId ∧
      r'.createdAt = existing.createdAt ∧ r'.tokenId = existing.tokenId ∧
      r'.userAddress = toAddr ∧
      r'.boxTypeId = classifyBoxTypeId db toAddr bts publicStartTime ∧
      (existing.userAddress = toAddr →
        existing.boxTypeId = classifyBoxTypeId db toAddr bts publicStartTime →
        handleMintEvent db toAddr tokenId bts publicStartTime now = db) :=
  handleMintEvent_existing_cases db toAddr tokenId bts publicStartTime now existing hfind

/-- Witness for C9: replaying a mint for the already-revealed token 3
(`originId = 7`) re-targets only owner and box type and keeps
`originId`, `metadataId`, `createdAt` intact. -/
theorem handleMintEvent_existing_frame_witness :
    ∃ r', (handleMintEvent
        { nftInfo := [{ tokenId := 3, metadataId := some 4, userAddress := "0xA",
                        boxTypeId := 2, originId := 7, createdAt := 11 }],
          originMetadataInfo := [], unrevealMetadataInfo := [],
          phase2Holders := [], randomSeedInfo := [], syncStatus := [] }
        "0xB" 3 none 0 99).nftInfo.find? (fun r => r.tokenId == 3) = some r' ∧
      r'.originId = ({ tokenId := 3, metadataId := some 4, userAddress := "0xA",
                       boxTypeId := 2, originId := 7, createdAt := 11 } : NftRecord).originId ∧
      r'.metadataId = ({ tokenId := 3, metadataId := some 4, userAddress := "0xA",
                         boxTypeId := 2, originId := 7, createdAt := 11 } : NftRecord).metadataId ∧
      r'.createdAt = ({ tokenId := 3, metadataId := some 4, userAddress := "0xA",
                        boxTypeId := 2, originId := 7, createdAt := 11 } : NftRecord).createdAt ∧
      r'.tokenId = ({ tokenId := 3, metadataId := some 4, userAddress := "0xA",
                      boxTypeId := 2, originId := 7, createdAt := 11 } : NftRecord).tokenId ∧
      r'.userAddress = "0xB" ∧
      r'.boxTypeId = classifyBoxTypeId
        { nftInfo := [{ tokenId := 3, metadataId := some 4, userAddress := "0xA",
                        boxTypeId := 2, originId := 7, createdAt := 11 }],
          originMetadataInfo := [], unrevealMetadataInfo := [],
          phase2Holders := [], randomSeedInfo := [], syncStatus := [] } "0xB" none 0 ∧
      (({ tokenId := 3, metadataId := some 4, userAddress := "0xA",
          boxTypeId := 2, originId := 7, createdAt := 11 } : NftRecord).userAddress = "0xB" →
        ({ tokenId := 3, metadataId := some 4, userAddress := "0xA",
           boxTypeId := 2, originId := 7, createdAt := 11 } : NftRecord).boxTypeId
          = classifyBoxTypeId
            { nftInfo := [{ tokenId := 3, metadataId := some 4, userAddress := "0xA",
                            boxTypeId := 2, originId := 7, createdAt := 11 }],
              originMetadataInfo := [], unrevealMetadataInfo := [],
              phase2Holders := [], randomSeedInfo := [], syncStatus := [] } "0xB" none 0 →
        handleMintEvent
          { nftInfo := [{ tokenId := 3, metadataId := some 4, userAddress := "0xA",
                          boxTypeId := 2, originId := 7, createdAt := 11 }],
            originMetadataInfo := [], unrevealMetadataInfo := [],
            phase2Holders := [], randomSeedInfo := [], syncStatus := [] }
          "0xB" 3 none 0 99
          = { nftInfo := [{ tokenId := 3, metadataId := some 4, userAddress := "0xA",
                            boxTypeId := 2, originId := 7, createdAt := 11 }],
              originMetadataInfo := [], unrevealMetadataInfo := [],
              phase2Holders := [], randomSeedInfo := [], syncStatus := [] }) :=
  handleMintEvent_existing_frame _ "0xB" 3 none 0 99 _ (by decide)

/-- Claim C5 (amended: the public-sale cut is strict, `blockTimestamp >
publicStartTime`, so a mint exactly at the start time still follows the
Phase2 rule): every mint event records the classified box type — `3` when
the timestamp is strictly after the public start; otherwise the recipient's
allow-list row decides, defaulting to `3`; with no timestamp the allow-list
rules apply directly. -/
theorem handleMintEvent_boxType_classification (db : Db) (toAddr : String)
    (tokenId : Nat) (bts : Option Nat) (publicStartTime now : Nat) :
    ∃ r, (handleMintEvent db toAddr tokenId bts publicStartTime now).nftInfo.find?
        (fun x => x.tokenId == tokenId) = some r ∧
      r.boxTypeId = classifyBoxTypeId db toAddr bts publicStartTime ∧
      (∀ ts, bts = some ts → publicStartTime < ts → r.boxTypeId = 3) ∧
      (∀ ts holder, bts = some ts → ts ≤ publicStartTime →
        db.phase2Holders.find? (fun h => h.userAddress == toAddr) = some holder →
        r.boxTypeId = holder.boxTypeId) ∧
      (∀ ts, bts = some ts → ts ≤ publicStartTime →
        db.phase2Holders.find? (fun h => h.userAddress == toAddr) = none →
        r.boxTypeId = 3) ∧
      (∀ holder, bts = none →
        db.phase2Holders.find? (fun h => h.userAddress == toAddr) = some holder →
        r.boxTypeId = holder.boxTypeId) ∧
      (bts = none →
        db.phase2Holders.find? (fun h => h.userAddress == toAddr) = none →
        r.boxTypeId = 3) := by
  have main : ∃ r, (handleMintEvent db toAddr tokenId bts publicStartTime now).nftInfo.find?
      (fun x => x.tokenId == tokenId) = some r ∧
      r.boxTypeId = classifyBoxTypeId db toAddr bts publicStartTime := by
    cases hfind : db.nftInfo.find? (fun r => r.tokenId == tokenId) with
    | some existing =>
      obtain ⟨r', h1, _, _, _, _, _, h7, _⟩ :=
        handleMintEvent_existing_cases db toAddr tokenId bts publicStartTime now existing hfind
      exact ⟨r', h1, h7⟩
    | none =>
      exact ⟨_, handleMintEvent_create_case db toAddr tokenId bts publicStartTime now hfind,
        rfl⟩
  obtain ⟨r, hr, hbox⟩ := main
  refine ⟨r, hr, hbox, ?_, ?_, ?_, ?_, ?_⟩
  · intro ts hts hlt
    subst hts
    rw [hbox]
    simp only [classifyBoxTypeId]
    rw [if_pos hlt]
  · intro ts holder hts hle hh
    subst hts
    rw [hbox]
    simp only [classifyBoxTypeId]
    rw [if_neg (by omega), hh]
  · intro ts hts hle hh
    subst hts
    rw [hbox]
    simp only [classifyBoxTypeId]
    rw [if_neg (by omega), hh]
  · intro holder hts hh
    subst hts
    rw [hbox]
    simp only [classifyBoxTypeId]
    rw [hh]
  · intro hts hh
    subst hts
    rw [hbox]
    simp only [classifyBoxTypeId]
    rw [hh]

/-- Counterexample to C5 as stated: a mint whose block timestamp equals the
public-sale start time ("at" the start) for a Phase2-eligible recipient is
recorded with the allow-list box type `1`, not `3` — the source compares
with a strict `>`, not the claimed `≥`. -/
theorem handleMintEvent_boundary_counterexample :
    ((handleMintEvent
        { nftInfo := [], originMetadataInfo := [], unrevealMetadataInfo := [],
          phase2Holders := [{ id := 1, userAddress := "0xP", boxTypeId := 1,
                              signature := none }],
          randomSeedInfo := [], syncStatus := [] }
        "0xP" 7 (some 1000) 1000 0).nftInfo.find?
        (fun x => x.tokenId == 7)).map (fun r => r.boxTypeId) = some 1 ∧
    (1 : Nat) ≠ 3 := by
  exact ⟨rfl, by decide⟩

/-- Claim C7: an ownership-transfer update writes the new owner only to the
row whose stored owner still equals `from`; with a unique `tokenId` key, a
missing record or an owner mismatch leaves the database exactly unchanged
(and reports 0 affected rows) rather than failing. -/
theorem handleOwnershipTransfer_stale_guard (db : Db) (fromAddr toAddr : String)
    (tokenId : Nat) (huniq : (db.nftInfo.map (fun r => r.tokenId)).Nodup) :
    (db.nftInfo.find? (fun r => r.tokenId == tokenId) = none →
      handleOwnershipTransfer db fromAddr toAddr tokenId = (db, 0)) ∧
    (∀ r, db.nftInfo.find? (fun x => x.tokenId == tokenId) = some r →
      r.userAddress ≠ fromAddr →
      handleOwnershipTransfer db fromAddr toAddr tokenId = (db, 0)) ∧
    (∀ r, db.nftInfo.find? (fun x => x.tokenId == tokenId) = some r →
      r.userAddress = fromAddr →
      (handleOwnershipTransfer db fromAddr toAddr tokenId).1.nftInfo.find?
          (fun x => x.tokenId == tokenId)
        = some { r with userAddress := toAddr }) := by
  refine ⟨?_, ?_, ?_⟩
  · intro hnone
    have hall : ∀ x ∈ db.nftInfo,
        (x.tokenId == tokenId && x.userAddress == fromAddr) = false := by
      intro x hx
      have := List.find?_eq_none.mp hnone x hx
      simp only [Bool.not_eq_true] at this
      simp [this]
    unfold handleOwnershipTransfer
    rw [map_eq_self_of (fun x hx => by rw [hall x hx]; rfl),
      List.filter_eq_nil_iff.mpr (fun x hx => by simp [hall x hx])]
    rfl
  · intro r hfound hne
    have hrmem : r ∈ db.nftInfo := List.mem_of_find?_eq_some hfound
    have hrkey : r.tokenId = tokenId := by simpa using List.find?_some hfound
    have hall : ∀ x ∈ db.nftInfo,
        (x.tokenId == tokenId && x.userAddress == fromAddr) = false := by
      intro x hx
      by_cases hxk : x.tokenId = tokenId
      · have hxr : x = r :=
          List.inj_on_of_nodup_map huniq hx hrmem (by rw [hxk, hrkey])
        subst hxr
        simp [hne]
      · simp [hxk]
    unfold handleOwnershipTransfer
    rw [map_eq_self_of (fun x hx => by rw [hall x hx]; rfl),
      List.filter_eq_nil_iff.mpr (fun x hx => by simp [hall x hx])]
    rfl
  · intro r hfound heq
    have hrkey := List.find?_some hfound
    unfold handleOwnershipTransfer
    show (db.nftInfo.map _).find? _ = _
    rw [find?_map_comm _ _ _ (fun x => by
        by_cases hx : (x.tokenId == tokenId) = true <;> by_cases hy : (x.userAddress == fromAddr) = true <;>
          simp [hx, hy]),
      hfound, Option.map_some']
    simp [hrkey, heq]

/-- Witness for C7: with one record for token 1 owned by `0xA`, a transfer
claiming `from = 0xB` is a no-op; the matching clause fires only for
`from = 0xA`. -/
theorem handleOwnershipTransfer_stale_guard_witness :
    (({ nftInfo := [{ tokenId := 1, metadataId := none, userAddress := "0xA",
                      boxTypeId := 0, originId := 0, createdAt := 0 }],
        originMetadataInfo := [], unrevealMetadataInfo := [],
        phase2Holders := [], randomSeedInfo := [], syncStatus := [] } : Db).nftInfo.find?
        (fun r => r.tokenId == 1) = none →
      handleOwnershipTransfer
        { nftInfo := [{ tokenId := 1, metadataId := none, userAddress := "0xA",
                        boxTypeId := 0, originId := 0, createdAt := 0 }],
          originMetadataInfo := [], unrevealMetadataInfo := [],
          phase2Holders := [], randomSeedInfo := [], syncStatus := [] } "0xB" "0xC" 1
        = ({ nftInfo := [{ tokenId := 1, metadataId := none, userAddress := "0xA",
                           boxTypeId := 0, originId := 0, createdAt := 0 }],
             originMetadataInfo := [], unrevealMetadataInfo := [],
             phase2Holders := [], randomSeedInfo := [], syncStatus := [] }, 0)) ∧
    (∀ r, ({ nftInfo := [{ tokenId := 1, metadataId := none, userAddress := "0xA",
                           boxTypeId := 0, originId := 0, createdAt := 0 }],
             originMetadataInfo := [], unrevealMetadataInfo := [],
             phase2Holders := [], randomSeedInfo := [], syncStatus := [] } : Db).nftInfo.find?
        (fun x => x.tokenId == 1) = some r →
      r.userAddress ≠ "0xB" →
      handleOwnershipTransfer
        { nftInfo := [{ tokenId := 1, metadataId := none, userAddress := "0xA",
                        boxTypeId := 0, originId := 0, createdAt := 0 }],
          originMetadataInfo := [], unrevealMetadataInfo := [],
          phase2Holders := [], randomSeedInfo := [], syncStatus := [] } "0xB" "0xC" 1
        = ({ nftInfo := [{ tokenId := 1, metadataId := none, userAddress := "0xA",
                           boxTypeId := 0, originId := 0, createdAt := 0 }],
             originMetadataInfo := [], unrevealMetadataInfo := [],
             phase2Holders := [], randomSeedInfo := [], syncStatus := [] }, 0)) ∧
    (∀ r, ({ nftInfo := [{ tokenId := 1, metadataId := none, userAddress := "0xA",
                           boxTypeId := 0, originId := 0, createdAt := 0 }],
             originMetadataInfo := [], unrevealMetadataInfo := [],
             phase2Holders := [], randomSeedInfo := [], syncStatus := [] } : Db).nftInfo.find?
        (fun x => x.tokenId == 1) = some r →
      r.userAddress = "0xB" →
      (handleOwnershipTransfer
          { nftInfo := [{ tokenId := 1, metadataId := none, userAddress := "0xA",
                          boxTypeId := 0, originId := 0, createdAt := 0 }],
            originMetadataInfo := [], unrevealMetadataInfo := [],
            phase2Holders := [], randomSeedInfo := [], syncStatus := [] } "0xB" "0xC" 1).1.nftInfo.find?
          (fun x => x.tokenId == 1)
        = some { r with userAddress := "0xC" }) :=
  handleOwnershipTransfer_stale_guard _ "0xB" "0xC" 1 (by decide)

/-! ### Historical-sync lemmas -/

theorem updateLastProcessedBlock_find? (db : Db) (bn : Nat) :
    ∃ s, (updateLastProcessedBlock db bn).syncStatus.find?
        (fun s => s.syncType == "transfer_events") = some s ∧
      s.lastProcessedBlock = bn := by
  unfold updateLastProcessedBlock
  by_cases hany : db.syncStatus.any (fun s => s.syncType == "transfer_events") = true
  · rw [if_pos hany]
    obtain ⟨s0, hs0mem, hs0⟩ := List.any_eq_true.mp hany
    have hsome : (db.syncStatus.find? (fun s => s.syncType == "transfer_events")).isSome := by
      rw [List.find?_isSome]
      exact ⟨s0, hs0mem, hs0⟩
    obtain ⟨s1, hs1⟩ := Option.isSome_iff_exists.mp hsome
    have hs1p := List.find?_some hs1
    refine ⟨{ s1 with lastProcessedBlock := bn }, ?_, rfl⟩
    show ((db.syncStatus.map _).find? _) = _
    rw [find?_map_comm _ _ _ (fun x => by
        by_cases hx : (x.syncType == "transfer_events") = true <;> simp [hx]), hs1,
      Option.map_some']
    simp [hs1p]
  · rw [if_neg hany]
    have hnone : db.syncStatus.find? (fun s => s.syncType == "transfer_events") = none :=
      List.find?_eq_none.mpr (fun x hx hp => hany (List.any_eq_true.mpr ⟨x, hx, hp⟩))
    refine ⟨{ syncType := "transfer_events", lastProcessedBlock := bn }, ?_, rfl⟩
    show ((db.syncStatus ++ _).find? _) = _
    rw [find?_append_right hnone]
    simp [List.find?]

theorem syncEventsLoop_counts (handleEvent : Db → TransferEvent → Except Unit Db) :
    ∀ (events : List TransferEvent) (db : Db) (c : SyncCounts),
      (syncEventsLoop handleEvent db c events).2.processed +
        (syncEventsLoop handleEvent db c events).2.errors
      = c.processed + c.errors + events.length := by
  intro events
  induction events with
  | nil => intro db c; simp [syncEventsLoop]
  | cons e rest ih =>
    intro db c
    cases hh : handleEvent db e with
    | ok db' =>
      by_cases hz : (e.fromAddr == zeroAddress) = true
      · simp only [syncEventsLoop, hh, if_pos hz]
        rw [ih db' { c with mints := c.mints + 1, processed := c.processed + 1 }]
        dsimp only
        simp only [List.length_cons]
        omega
      · simp only [syncEventsLoop, hh, if_neg hz]
        rw [ih db' { c with transfers := c.transfers + 1, processed := c.processed + 1 }]
        dsimp only
        simp only [List.length_cons]
        omega
    | error u =>
      simp only [syncEventsLoop, hh]
      rw [ih db { c with errors := c.errors + 1 }]
      dsimp only
      simp only [List.length_cons]
      omega

/-- Claim C10: whenever the event query of a historical catch-up succeeds,
the persisted `lastProcessedBlock` is advanced to the range's end block no
matter how many individual events failed (failures are only counted in the
`errors` field, and every event is either processed or counted as an
error); a subsequent catch-up that resumes from the stored block therefore
starts at `endBlock` and never revisits the errored events. -/
theorem syncHistoricalEvents_advances_block
    (handleEvent : Db → TransferEvent → Except Unit Db) (db : Db)
    (events : List TransferEvent) (endBlock : Nat) :
    (∃ s, (syncHistoricalEvents handleEvent db events endBlock).1.syncStatus.find?
        (fun s => s.syncType == "transfer_events") = some s ∧
      s.lastProcessedBlock = endBlock) ∧
    resumeStartBlock (syncHistoricalEvents handleEvent db events endBlock).1 none = endBlock ∧
    (syncHistoricalEvents handleEvent db events endBlock).2.processed +
        (syncHistoricalEvents handleEvent db events endBlock).2.errors
      = events.length := by
  obtain ⟨s, hs, hsb⟩ :=
    updateLastProcessedBlock_find? (syncEventsLoop handleEvent db ⟨0, 0, 0, 0⟩ events).1 endBlock
  refine ⟨⟨s, hs, hsb⟩, ?_, ?_⟩
  · show (match (syncHistoricalEvents handleEvent db events endBlock).1.syncStatus.find?
        (fun s => s.syncType == "transfer_events") with
      | some s => s.lastProcessedBlock
      | none => 0) = endBlock
    rw [show (syncHistoricalEvents handleEvent db events endBlock).1.syncStatus.find?
        (fun s => s.syncType == "transfer_events") = some s from hs]
    exact hsb
  · have := syncEventsLoop_counts handleEvent events db ⟨0, 0, 0, 0⟩
    simpa using this

/-! ## Reveal route — `POST /metadata/reveal/:tokenId` (metadata routes)

External collaborators of the route: `blockchainService.getOwnerOf`
(`ownerOf`, failing when the RPC call throws), viem's `getAddress` checksum
normalisation (`getAddress`, total on the addresses the route feeds it), and
ethers' `verifyMessage` ECDSA recovery (`verifyMessage`, failing on a
malformed signature).  `Math.floor(Math.random() * n)` is a uniformly random
index in `[0, n)`; it is modelled as `randomIndex % n` for an arbitrary
`randomIndex`. -/

structure RevealEnv where
  ownerOf : Nat → Option String
  getAddress : String → String
  verifyMessage : String → String → Option String

/-- Error kinds of the reveal route, one per early `return res.status(...)`
or thrown transaction error. -/
inductive RevealError where
  | invalidTokenId
  | missingFields
  | tokenNotFound
  | alreadyRevealed
  | ownershipCheckFailed
  | invalidMessage
  | invalidSignatureFormat
  | signatureMismatch
  | txTokenNotFound
  | txAlreadyRevealed
  | noAvailableMetadata
deriving Repr, DecidableEq

/-- `generateRevealMessage(tokenId, ownerAddress)` from the metadata routes:
``` `SLASH206: Reveal token ${tokenId} by ${getAddress(ownerAddress)}` ```. -/
def generateRevealMessage (env : RevealEnv) (tokenId : Nat) (ownerAddress : String) :
    String :=
  "SLASH206: Reveal token " ++ toString tokenId ++ " by " ++ env.getAddress ownerAddress

/-- The `findMany({ where: { boxTypeId, isAssigned: false }, take: 500,
select: { originId } })` candidate pool of the reveal transaction. -/
def availableOriginIds (db : Db) (boxTypeId : Nat) : List Nat :=
  ((db.originMetadataInfo.filter
      (fun o => o.boxTypeId == boxTypeId && o.isAssigned == false)).take 500).map
    (fun o => o.originId)

/-- The two writes of the reveal transaction: set the token's `originId` and
mark the chosen origin assigned. -/
def applyReveal (db : Db) (tokenId originId : Nat) : Db :=
  { db with
    nftInfo := db.nftInfo.map (fun r =>
      if r.tokenId == tokenId then { r with originId := originId } else r),
    originMetadataInfo := db.originMetadataInfo.map (fun o =>
      if o.originId == originId then { o with isAssigned := true } else o) }

/-- The `prisma.$transaction` block of the reveal route (re-read the token,
re-check `originId`, pick a random unassigned origin of the token's box
type, bind it).  Errors roll the transaction back, so they leave the
database argument unchanged. -/
def revealTransaction (db : Db) (tokenId : Nat) (randomIndex : Nat) :
    Db × Except RevealError Nat :=
  match db.nftInfo.find? (fun r => r.tokenId == tokenId) with
  | none => (db, .error .txTokenNotFound)
  | some txNftInfo =>
    if txNftInfo.originId ≠ 0 then (db, .error .txAlreadyRevealed)
    else
      match availableOriginIds db txNftInfo.boxTypeId with
      | [] => (db, .error .noAvailableMetadata)
      | o0 :: rest =>
        let chosen := (o0 :: rest).getD (randomIndex % (o0 :: rest).length) o0
        (applyReveal db tokenId chosen, .ok chosen)

/-- `POST /metadata/reveal/:tokenId`: validation, the `AlreadyRevealed`
guard, current-owner lookup, canonical-message comparison, signature
recovery, then the assignment transaction.  Every error path returns the
database unchanged (pre-transaction paths perform no write; transaction
errors roll back). -/
def revealRoute (env : RevealEnv) (db : Db) (tokenId : Nat)
    (message signature : String) (randomIndex : Nat) : Db × Except RevealError Nat :=
  if tokenId < 1 then (db, .error .invalidTokenId)
  else if message = "" ∨ signature = "" then (db, .error .missingFields)
  else
    match db.nftInfo.find? (fun r => r.tokenId == tokenId) with
    | none => (db, .error .tokenNotFound)
    | some nftInfo =>
      if nftInfo.originId ≠ 0 then (db, .error .alreadyRevealed)
      else
        match env.ownerOf tokenId with
        | none => (db, .error .ownershipCheckFailed)
        | some rawOwner =>
          if message ≠ generateRevealMessage env tokenId (env.getAddress rawOwner) then
            (db, .error .invalidMessage)
          else
            match env.verifyMessage message signature with
            | none => (db, .error .invalidSignatureFormat)
            | some recovered =>
              if env.getAddress recovered ≠ env.getAddress rawOwner then
                (db, .error .signatureMismatch)
              else revealTransaction db tokenId randomIndex

theorem generateRevealMessage_ne_empty (env : RevealEnv) (tokenId : Nat)
    (ownerAddress : String) : generateRevealMessage env tokenId ownerAddress ≠ "" := by
  unfold generateRevealMessage
  intro hcon
  have hlen := congrArg String.length hcon
  rw [String.length_append, String.length_append, String.length_append] at hlen
  have h23 : ("SLASH206: Reveal token " : String).length = 23 := rfl
  have h0 : ("" : String).length = 0 := rfl
  omega

theorem mem_availableOriginIds (db : Db) (boxTypeId x : Nat)
    (hx : x ∈ availableOriginIds db boxTypeId) :
    ∃ o ∈ db.originMetadataInfo, o.originId = x ∧ o.boxTypeId = boxTypeId ∧
      o.isAssigned = false := by
  obtain ⟨o, ho, rfl⟩ := List.mem_map.mp hx
  have ho' := List.mem_of_mem_filter (List.take_subset 500 _ ho)
  have hp := List.of_mem_filter (List.take_subset 500 _ ho)
  simp only [Bool.and_eq_true, beq_iff_eq] at hp
  exact ⟨o, ho', rfl, hp.1, hp.2⟩

theorem revealTransaction_ok (db db' : Db) (tokenId randomIndex oid : Nat)
    (h : revealTransaction db tokenId randomIndex = (db', .ok oid)) :
    ∃ nft, db.nftInfo.find? (fun r => r.tokenId == tokenId) = some nft ∧
      nft.originId = 0 ∧ oid ∈ availableOriginIds db nft.boxTypeId ∧
      db' = applyReveal db tokenId oid := by
  unfold revealTransaction at h
  split at h
  · simp at h
  · next nft hfind =>
    split at h
    · simp at h
    · next hrev =>
      split at h
      · simp at h
      · next o0 rest hpool =>
        simp only [Prod.mk.injEq] at h
        obtain ⟨hdb, hok⟩ := h
        have hoid := Except.ok.inj hok
        have hmem : oid ∈ availableOriginIds db nft.boxTypeId := by
          rw [hpool, ← hoid]
          exact getD_mem _ _ _ (Nat.mod_lt _ (by simp))
        exact ⟨nft, hfind, by omega, hmem, by rw [← hdb, hoid]⟩

theorem revealRoute_ok (env : RevealEnv) (db db' : Db) (tokenId : Nat)
    (message signature : String) (randomIndex oid : Nat)
    (h : revealRoute env db tokenId message signature randomIndex = (db', .ok oid)) :
    1 ≤ tokenId ∧
    ∃ nft, db.nftInfo.find? (fun r => r.tokenId == tokenId) = some nft ∧
      nft.originId = 0 ∧ oid ∈ availableOriginIds db nft.boxTypeId ∧
      db' = applyReveal db tokenId oid := by
  unfold revealRoute at h
  split at h
  · simp at h
  · next htok =>
    split at h
    · simp at h
    · split at h
      · simp at h
      · split at h
        · simp at h
        · split at h
          · simp at h
          · split at h
            · simp at h
            · split at h
              · simp at h
              · split at h
                · simp at h
                · exact ⟨by omega, revealTransaction_ok db db' tokenId randomIndex oid h⟩

/-- Claim C3: once a reveal of `tokenId` has succeeded (binding it to origin
`oid`), any second reveal attempt on the resulting state — with any
non-empty message and signature, in particular valid ones — fails with
`AlreadyRevealed`, returns the state unchanged, and the token's `originId`
is still the nonzero `oid` (the hypothesis `h0` is the data-model invariant
that `OriginMetadata` keys are positive, `originId = 0` being the reserved
"unrevealed" marker). -/
theorem reveal_second_attempt_alreadyRevealed (env : RevealEnv) (db db' : Db)
    (tokenId : Nat) (msg sig msg2 sig2 : String) (idx idx2 oid : Nat)
    (h0 : ∀ o ∈ db.originMetadataInfo, o.originId ≠ 0)
    (h1 : revealRoute env db tokenId msg sig idx = (db', .ok oid))
    (hm2 : msg2 ≠ "") (hs2 : sig2 ≠ "") :
    revealRoute env db' tokenId msg2 sig2 idx2 = (db', .error .alreadyRevealed) ∧
    (db'.nftInfo.find? (fun r => r.tokenId == tokenId)).map (fun r => r.originId)
      = some oid ∧ oid ≠ 0 := by
  obtain ⟨htok, nft, hfind, hrev0, hmem, hdb'⟩ := revealRoute_ok env db db' tokenId msg sig idx oid h1
  obtain ⟨o, homem, hoid, _, _⟩ := mem_availableOriginIds db nft.boxTypeId oid hmem
  have hoid0 : oid ≠ 0 := hoid ▸ h0 o homem
  have hfind' : db'.nftInfo.find? (fun r => r.tokenId == tokenId)
      = some { nft with originId := oid } := by
    rw [hdb']
    show (db.nftInfo.map _).find? _ = _
    rw [find?_map_comm _ _ _ (fun x => by
        by_cases hx : (x.tokenId == tokenId) = true <;> simp [hx]), hfind,
      Option.map_some']
    simp [List.find?_some hfind]
  refine ⟨?_, by rw [hfind']; rfl, hoid0⟩
  unfold revealRoute
  rw [if_neg (by omega), if_neg (by push_neg; exact ⟨hm2, hs2⟩)]
  simp only [hfind']
  rw [if_pos hoid0]

/-- Witness for C3: a concrete successful reveal of token 7 to origin 9,
followed by a second attempt that fails with `AlreadyRevealed`. -/
theorem reveal_second_attempt_alreadyRevealed_witness :
    revealRoute
      { ownerOf := fun _ => some "0xOWNER", getAddress := fun s => s,
        verifyMessage := fun _ _ => some "0xOWNER" }
      { nftInfo := [{ tokenId := 7, metadataId := none, userAddress := "0xOWNER",
                      boxTypeId := 1, originId := 9, createdAt := 0 }],
        originMetadataInfo := [{ originId := 9, boxTypeId := 1, metadata := "m9",
                                 isAssigned := true }],
        unrevealMetadataInfo := [], phase2Holders := [], randomSeedInfo := [],
        syncStatus := [] }
      7 "again" "sig2" 0
      = ({ nftInfo := [{ tokenId := 7, metadataId := none, userAddress := "0xOWNER",
                         boxTypeId := 1, originId := 9, createdAt := 0 }],
           originMetadataInfo := [{ originId := 9, boxTypeId := 1, metadata := "m9",
                                    isAssigned := true }],
           unrevealMetadataInfo := [], phase2Holders := [], randomSeedInfo := [],
           syncStatus := [] }, .error .alreadyRevealed) ∧
    (({ nftInfo := [{ tokenId := 7, metadataId := none, userAddress := "0xOWNER",
                      boxTypeId := 1, originId := 9, createdAt := 0 }],
        originMetadataInfo := [{ originId := 9, boxTypeId := 1, metadata := "m9",
                                 isAssigned := true }],
        unrevealMetadataInfo := [], phase2Holders := [], randomSeedInfo := [],
        syncStatus := [] } : Db).nftInfo.find?
        (fun r => r.tokenId == 7)).map (fun r => r.originId) = some 9 ∧ (9 : Nat) ≠ 0 :=
  reveal_second_attempt_alreadyRevealed
    { ownerOf := fun _ => some "0xOWNER", getAddress := fun s => s,
      verifyMessage := fun _ _ => some "0xOWNER" }
    { nftInfo := [{ tokenId := 7, metadataId := none, userAddress := "0xOWNER",
                    boxTypeId := 1, originId := 0, createdAt := 0 }],
      originMetadataInfo := [{ originId := 9, boxTypeId := 1, metadata := "m9",
                               isAssigned := false }],
      unrevealMetadataInfo := [], phase2Holders := [], randomSeedInfo := [],
      syncStatus := [] }
    { nftInfo := [{ tokenId := 7, metadataId := none, userAddress := "0xOWNER",
                    boxTypeId := 1, originId := 9, createdAt := 0 }],
      originMetadataInfo := [{ originId := 9, boxTypeId := 1, metadata := "m9",
                               isAssigned := true }],
      unrevealMetadataInfo := [], phase2Holders := [], randomSeedInfo := [],
      syncStatus := [] }
    7 "SLASH206: Reveal token 7 by 0xOWNER" "sig" "again" "sig2" 0 0 9
    (by decide) (by decide) (by decide) (by decide)

/-- Claim C4: for an unrevealed token whose box type has no unassigned
`OriginMetadata` rows, the reveal — with valid ownership proof — fails with
`NoAvailableMetadata` and returns the database unchanged, so the token's
`originId` stays `0` and no origin row becomes assigned. -/
theorem reveal_noAvailableMetadata_state_unchanged (env : RevealEnv) (db : Db)
    (tokenId : Nat) (sig rawOwner : String) (idx : Nat) (nft : NftRecord)
    (htok : 1 ≤ tokenId)
    (hsig : sig ≠ "")
    (hfind : db.nftInfo.find? (fun r => r.tokenId == tokenId) = some nft)
    (hrev : nft.originId = 0)
    (howner : env.ownerOf tokenId = some rawOwner)
    (hrec : env.verifyMessage
        (generateRevealMessage env tokenId (env.getAddress rawOwner)) sig
      = some rawOwner)
    (hpool : availableOriginIds db nft.boxTypeId = []) :
    revealRoute env db tokenId
        (generateRevealMessage env tokenId (env.getAddress rawOwner)) sig idx
      = (db, .error .noAvailableMetadata) ∧
    (db.nftInfo.find? (fun r => r.tokenId == tokenId)).map (fun r => r.originId)
      = some 0 := by
  refine ⟨?_, by rw [hfind, Option.map_some', hrev]⟩
  unfold revealRoute
  rw [if_neg (by omega),
    if_neg (by push_neg; exact ⟨generateRevealMessage_ne_empty env tokenId _, hsig⟩)]
  simp only [hfind]
  rw [if_neg (by omega)]
  simp only [howner]
  rw [if_neg (by simp)]
  simp only [hrec]
  rw [if_neg (by simp)]
  unfold revealTransaction
  simp only [hfind]
  rw [if_neg (by omega), hpool]

/-- Witness for C4: token 7 of box type 1, with an empty origin pool for
box type 1, fails with `NoAvailableMetadata` and keeps `originId = 0`. -/
theorem reveal_noAvailableMetadata_state_unchanged_witness :
    revealRoute
      { ownerOf := fun _ => some "0xOWNER", getAddress := fun s => s,
        verifyMessage := fun _ _ => some "0xOWNER" }
      { nftInfo := [{ tokenId := 7, metadataId := none, userAddress := "0xOWNER",
                      boxTypeId := 1, originId := 0, createdAt := 0 }],
        originMetadataInfo := [{ originId := 4, boxTypeId := 2, metadata := "m4",
                                 isAssigned := false }],
        unrevealMetadataInfo := [], phase2Holders := [], randomSeedInfo := [],
        syncStatus := [] }
      7 (generateRevealMessage
          { ownerOf := fun _ => some "0xOWNER", getAddress := fun s => s,
            verifyMessage := fun _ _ => some "0xOWNER" } 7
          (({ ownerOf := fun _ => some "0xOWNER", getAddress := fun s => s,
              verifyMessage := fun _ _ => some "0xOWNER" } : RevealEnv).getAddress
            "0xOWNER")) "sig" 3
      = ({ nftInfo := [{ tokenId := 7, metadataId := none, userAddress := "0xOWNER",
                         boxTypeId := 1, originId := 0, createdAt := 0 }],
           originMetadataInfo := [{ originId := 4, boxTypeId := 2, metadata := "m4",
                                    isAssigned := false }],
           unrevealMetadataInfo := [], phase2Holders := [], randomSeedInfo := [],
           syncStatus := [] }, .error .noAvailableMetadata) ∧
    (({ nftInfo := [{ tokenId := 7, metadataId := none, userAddress := "0xOWNER",
                      boxTypeId := 1, originId := 0, createdAt := 0 }],
        originMetadataInfo := [{ originId := 4, boxTypeId := 2, metadata := "m4",
                                 isAssigned := false }],
        unrevealMetadataInfo := [], phase2Holders := [], randomSeedInfo := [],
        syncStatus := [] } : Db).nftInfo.find?
        (fun r => r.tokenId == 7)).map (fun r => r.originId) = some 0 :=
  reveal_noAvailableMetadata_state_unchanged
    { ownerOf := fun _ => some "0xOWNER", getAddress := fun s => s,
      verifyMessage := fun _ _ => some "0xOWNER" }
    { nftInfo := [{ tokenId := 7, metadataId := none, userAddress := "0xOWNER",
                    boxTypeId := 1, originId := 0, createdAt := 0 }],
      originMetadataInfo := [{ originId := 4, boxTypeId := 2, metadata := "m4",
                               isAssigned := false }],
      unrevealMetadataInfo := [], phase2Holders := [], randomSeedInfo := [],
      syncStatus := [] }
    7 "sig" "0xOWNER" 3
    { tokenId := 7, metadataId := none, userAddress := "0xOWNER",
      boxTypeId := 1, originId := 0, createdAt := 0 }
    (by decide) (by decide) (by decide) (by decide) (by decide)
    (by decide) (by decide)

/-! ## Mapping generation and seed check — `src/src/services/mapping.ts`,
`src/src/services/blockchain.ts`, `src/src/services/scheduler.ts`

`generateAllMappings(randomSeed, maxSupply)` recomputes `metadataId` for
every `NftInfo` row and marks the seed row `mappingsGenerated` (the code
after its early `return` statement is dead and not modelled).  As in the
permutation section, the seed's two keccak digests are the explicit
parameters `ha`, `hb`. -/

/-- One iteration of the `for (const nft of existingNfts)` update loop. -/
def setMetadataId (ha hb maxSupply : Nat) (nft : NftRecord) : Option NftRecord :=
  (calculateMetadataId ha hb nft.tokenId maxSupply).map
    (fun mid => { nft with metadataId := some mid })

/-- The whole update loop; a thrown `calculateMetadataId` error propagates. -/
def setAllMetadataIds (ha hb maxSupply : Nat) : List NftRecord → Option (List NftRecord)
  | [] => some []
  | nft :: rest =>
    match setMetadataId ha hb maxSupply nft, setAllMetadataIds ha hb maxSupply rest with
    | some nft', some rest' => some (nft' :: rest')
    | _, _ => none

/-- The `prisma.randomSeedInfo.upsert({ where: { randomSeed }, update:
{ mappingsGenerated: true }, create: { randomSeed, mappingsGenerated:
true } })` at the end of `generateAllMappings` (the created row's
autoincrement `id` and default `syncedAt` are immaterial and set to 0). -/
def upsertSeedFlag (rows : List RandomSeedRow) (seed : Nat) : List RandomSeedRow :=
  if rows.any (fun r => r.randomSeed == seed) then
    rows.map (fun r =>
      if r.randomSeed == seed then { r with mappingsGenerated := true } else r)
  else
    rows ++ [{ id := 0, randomSeed := seed, syncedAt := 0, mappingsGenerated := true }]

/-- `MappingService.generateAllMappings` (lines 5–31): return early when no
NFTs exist, otherwise recompute every row's `metadataId` and flag the seed
row. -/
def generateAllMappings (db : Db) (ha hb : Nat) (seed maxSupply : Nat) : Option Db :=
  if db.nftInfo.isEmpty then some db
  else
    match setAllMetadataIds ha hb maxSupply db.nftInfo with
    | none => none
    | some nftInfo' =>
      some { db with
        nftInfo := nftInfo',
        randomSeedInfo := upsertSeedFlag db.randomSeedInfo seed }

/-- `BlockchainService.syncRandomSeedFromContract` (lines 104–148), with the
contract's `getRandomSeedStatus()` answer passed in as `(contractSeed,
isRevealed)`: no seed yet ⇒ report `0`; a seed already recorded ⇒ report it
without writing; otherwise upsert the row with `id = 1`.  Returns the
`(randomSeed, needToGenerateMappings)` pair. -/
def syncRandomSeed (db : Db) (contractSeed : Nat) (isRevealed : Bool) (now : Nat) :
    Db × Nat × Bool :=
  if !isRevealed || contractSeed == 0 then (db, 0, false)
  else
    match db.randomSeedInfo.find? (fun r => r.randomSeed == contractSeed) with
    | some _ => (db, contractSeed, false)
    | none =>
      if db.randomSeedInfo.any (fun r => r.id == 1) then
        ({ db with randomSeedInfo := db.randomSeedInfo.map (fun r =>
            if r.id == 1 then { r with randomSeed := contractSeed, syncedAt := now }
            else r) },
         contractSeed, true)
      else
        ({ db with randomSeedInfo := db.randomSeedInfo ++
            [{ id := 1, randomSeed := contractSeed, syncedAt := now,
               mappingsGenerated := false }] },
         contractSeed, true)

/-- `SchedulerService.forceCheck` (lines 176–212): sync the seed from the
contract, then — whenever a nonzero seed is reported, regardless of the
`needToGenerateMappings` flag — run `generateAllMappings`. -/
def forceCheck (db : Db) (contractSeed : Nat) (isRevealed : Bool) (ha hb : Nat)
    (maxSupply : Nat) (now : Nat) : Option Db :=
  if (syncRandomSeed db contractSeed isRevealed now).2.1 ≠ 0 then
    generateAllMappings (syncRandomSeed db contractSeed isRevealed now).1 ha hb
      (syncRandomSeed db contractSeed isRevealed now).2.1 maxSupply
  else some (syncRandomSeed db contractSeed isRevealed now).1

theorem setMetadataId_idem (ha hb ms : Nat) (nft nft' : NftRecord)
    (h : setMetadataId ha hb ms nft = some nft') :
    setMetadataId ha hb ms nft' = some nft' := by
  unfold setMetadataId at h ⊢
  obtain ⟨mid, hmid, hnft'⟩ := Option.map_eq_some'.mp h
  subst hnft'
  rw [show ({ nft with metadataId := some mid } : NftRecord).tokenId = nft.tokenId from rfl,
    hmid]
  rfl

theorem setAllMetadataIds_idem (ha hb ms : Nat) :
    ∀ (l l' : List NftRecord), setAllMetadataIds ha hb ms l = some l' →
      setAllMetadataIds ha hb ms l' = some l' := by
  intro l
  induction l with
  | nil =>
    intro l' h
    have : l' = [] := by simpa [setAllMetadataIds] using h.symm
    subst this
    rfl
  | cons nft rest ih =>
    intro l' h
    unfold setAllMetadataIds at h
    cases h1 : setMetadataId ha hb ms nft with
    | none => rw [h1] at h; simp at h
    | some nft' =>
      cases h2 : setAllMetadataIds ha hb ms rest with
      | none => rw [h1, h2] at h; simp at h
      | some rest' =>
        rw [h1, h2] at h
        have hl' : l' = nft' :: rest' := (Option.some.inj h).symm
        subst hl'
        show setAllMetadataIds ha hb ms (nft' :: rest') = some (nft' :: rest')
        unfold setAllMetadataIds
        rw [setMetadataId_idem ha hb ms nft nft' h1, ih rest' h2]

theorem mem_upsertSeedFlag_flag (rows : List RandomSeedRow) (seed : Nat) :
    ∀ x ∈ upsertSeedFlag rows seed, x.randomSeed = seed → x.mappingsGenerated = true := by
  intro x hx hxs
  unfold upsertSeedFlag at hx
  by_cases hany : rows.any (fun r => r.randomSeed == seed) = true
  · rw [if_pos hany] at hx
    obtain ⟨r, hr, hfr⟩ := List.mem_map.mp hx
    by_cases hrs : (r.randomSeed == seed) = true
    · rw [if_pos hrs] at hfr
      rw [← hfr]
    · rw [if_neg hrs] at hfr
      subst hfr
      exact absurd (by simpa using hxs) hrs
  · rw [if_neg hany] at hx
    rcases List.mem_append.mp hx with hmem | hmem
    · exact absurd (List.any_eq_true.mpr ⟨x, hmem, by simp [hxs]⟩) hany
    · rw [List.mem_singleton.mp hmem]

theorem upsertSeedFlag_mem (rows : List RandomSeedRow) (seed : Nat) :
    ∃ r ∈ upsertSeedFlag rows seed, r.randomSeed = seed := by
  unfold upsertSeedFlag
  by_cases hany : rows.any (fun r => r.randomSeed == seed) = true
  · rw [if_pos hany]
    obtain ⟨r0, hr0, hp⟩ := List.any_eq_true.mp hany
    refine ⟨_, List.mem_map_of_mem _ hr0, ?_⟩
    rw [if_pos hp]
    simpa using hp
  · rw [if_neg hany]
    exact ⟨_, List.mem_append_right _ (List.mem_singleton_self _), rfl⟩

theorem upsertSeedFlag_idem (rows : List RandomSeedRow) (seed : Nat) :
    upsertSeedFlag (upsertSeedFlag rows seed) seed = upsertSeedFlag rows seed := by
  obtain ⟨r, hr, hrs⟩ := upsertSeedFlag_mem rows seed
  have hany2 : (upsertSeedFlag rows seed).any (fun r => r.randomSeed == seed) = true :=
    List.any_eq_true.mpr ⟨r, hr, by simp [hrs]⟩
  rw [upsertSeedFlag, if_pos hany2]
  apply map_eq_self_of
  intro x hx
  by_cases hxs : (x.randomSeed == seed) = true
  · rw [if_pos hxs]
    have hflag := mem_upsertSeedFlag_flag rows seed x hx (by simpa using hxs)
    cases x with
    | mk i rs sy mg => simp_all
  · rw [if_neg hxs]

theorem generateAllMappings_row (db db₁ : Db) (ha hb seed ms : Nat)
    (h : generateAllMappings db ha hb seed ms = some db₁)
    (hrow : ∃ r ∈ db.randomSeedInfo, r.randomSeed = seed) :
    ∃ r ∈ db₁.randomSeedInfo, r.randomSeed = seed := by
  unfold generateAllMappings at h
  by_cases hemp : db.nftInfo.isEmpty = true
  · rw [if_pos hemp] at h
    rw [← Option.some.inj h]
    exact hrow
  · rw [if_neg hemp] at h
    cases hset : setAllMetadataIds ha hb ms db.nftInfo with
    | none => rw [hset] at h; simp at h
    | some l' =>
      rw [hset] at h
      rw [← Option.some.inj h]
      exact upsertSeedFlag_mem db.randomSeedInfo seed

theorem generateAllMappings_idem (db db₁ : Db) (ha hb seed ms : Nat)
    (h : generateAllMappings db ha hb seed ms = some db₁) :
    generateAllMappings db₁ ha hb seed ms = some db₁ := by
  unfold generateAllMappings at h ⊢
  by_cases hemp : db.nftInfo.isEmpty = true
  · rw [if_pos hemp] at h
    have hdb : db = db₁ := Option.some.inj h
    subst hdb
    rw [if_pos hemp]
  · rw [if_neg hemp] at h
    cases hset : setAllMetadataIds ha hb ms db.nftInfo with
    | none => rw [hset] at h; simp at h
    | some l' =>
      rw [hset] at h
      have hdb₁ : db₁ = { db with
          nftInfo := l',
          randomSeedInfo := upsertSeedFlag db.randomSeedInfo seed } :=
        (Option.some.inj h).symm
      subst hdb₁
      have hne : l' ≠ [] := by
        cases hl : db.nftInfo with
        | nil => rw [hl] at hemp; simp at hemp
        | cons a t =>
          rw [hl] at hset
          unfold setAllMetadataIds at hset
          cases h1 : setMetadataId ha hb ms a with
          | none => rw [h1] at hset; simp at hset
          | some a' =>
            cases h2 : setAllMetadataIds ha hb ms t with
            | none => rw [h1, h2] at hset; simp at hset
            | some t' =>
              rw [h1, h2] at hset
              rw [← Option.some.inj hset]
              simp
      have hemp' : l'.isEmpty = false := by
        cases l' with
        | nil => exact absurd rfl hne
        | cons a t => rfl
      dsimp only
      rw [if_neg (by simp [hemp']),
        setAllMetadataIds_idem ha hb ms db.nftInfo l' hset, upsertSeedFlag_idem]

theorem syncRandomSeed_stop (db : Db) (seed : Nat) (rev : Bool) (now : Nat)
    (hc : (!rev || seed == 0) = true) :
    syncRandomSeed db seed rev now = (db, 0, false) := by
  rw [syncRandomSeed, if_pos hc]

theorem syncRandomSeed_found (db : Db) (seed : Nat) (rev : Bool) (now : Nat)
    (r0 : RandomSeedRow) (hc : (!rev || seed == 0) = false)
    (hfind : db.randomSeedInfo.find? (fun r => r.randomSeed == seed) = some r0) :
    syncRandomSeed db seed rev now = (db, seed, false) := by
  rw [syncRandomSeed, if_neg (by rw [hc]; simp)]
  rw [hfind]

theorem syncRandomSeed_go (db : Db) (seed : Nat) (rev : Bool) (now : Nat)
    (hc : (!rev || seed == 0) = false) :
    ∃ db1 need, syncRandomSeed db seed rev now = (db1, seed, need) ∧
      ∃ r ∈ db1.randomSeedInfo, r.randomSeed = seed := by
  rw [syncRandomSeed, if_neg (by rw [hc]; simp)]
  cases hfind : db.randomSeedInfo.find? (fun r => r.randomSeed == seed) with
  | some r0 =>
    exact ⟨db, false, rfl, r0, List.mem_of_find?_eq_some hfind,
      by simpa using List.find?_some hfind⟩
  | none =>
    by_cases hany : db.randomSeedInfo.any (fun r => r.id == 1) = true
    · rw [if_pos hany]
      obtain ⟨r1, hr1, _⟩ := List.any_eq_true.mp hany
      refine ⟨_, true, rfl, ?_⟩
      refine ⟨_, List.mem_map_of_mem _ hr1, ?_⟩
      by_cases h1 : (r1.id == 1) = true
      · rw [if_pos h1]
      · rw [if_neg h1]
        exact absurd (by assumption) h1
    · rw [if_neg hany]
      exact ⟨_, true, rfl, _, List.mem_append_right _ (List.mem_singleton_self _), rfl⟩

/-- Claim C6: once `forceCheck` has completed a seed-check / mapping-
generation pass (so the seed row's `mappingsGenerated` flag is set), running
the same pass again for the same seed and `maxSupply` is a no-op on
persisted state — the second run succeeds and returns the database exactly
unchanged, so in particular every `NftRecord`'s `metadataSlotId`
(`metadataId`) and the seed row's flag are untouched. -/
theorem forceCheck_rerun_noop (db db₁ : Db) (seed : Nat) (rev : Bool)
    (ha hb maxSupply now now' : Nat)
    (h : forceCheck db seed rev ha hb maxSupply now = some db₁) :
    forceCheck db₁ seed rev ha hb maxSupply now' = some db₁ := by
  by_cases hc : (!rev || seed == 0) = true
  · rw [forceCheck, syncRandomSeed_stop db seed rev now hc] at h
    rw [if_neg (by simp)] at h
    have hdb : db = db₁ := Option.some.inj h
    subst hdb
    rw [forceCheck, syncRandomSeed_stop db seed rev now' hc, if_neg (by simp)]
  · have hcf : (!rev || seed == 0) = false := Bool.eq_false_iff.mpr hc
    have hseed0 : seed ≠ 0 := by
      intro h0
      subst h0
      simp at hcf
    obtain ⟨db1, need, hsync, hrow⟩ := syncRandomSeed_go db seed rev now hcf
    rw [forceCheck, hsync, if_pos hseed0] at h
    have hrow₁ := generateAllMappings_row db1 db₁ ha hb seed maxSupply h hrow
    obtain ⟨r₁, hr₁, hr₁s⟩ := hrow₁
    have hfind₁ : (db₁.randomSeedInfo.find? (fun r => r.randomSeed == seed)).isSome := by
      rw [List.find?_isSome]
      exact ⟨r₁, hr₁, by simp [hr₁s]⟩
    obtain ⟨r₂, hr₂⟩ := Option.isSome_iff_exists.mp hfind₁
    rw [forceCheck, syncRandomSeed_found db₁ seed rev now' r₂ hcf hr₂, if_pos hseed0]
    exact generateAllMappings_idem db1 db₁ ha hb seed maxSupply h

/-- Witness for C6: from an empty seed table and one NFT, a first
`forceCheck` with seed 42 and `maxSupply` 10 assigns `metadataId` 8 and sets
the flag; re-running it on the result is the identity. -/
theorem forceCheck_rerun_noop_witness :
    forceCheck
      { nftInfo := [{ tokenId := 1, metadataId := some 8, userAddress := "0xA",
                      boxTypeId := 1, originId := 0, createdAt := 0 }],
        originMetadataInfo := [], unrevealMetadataInfo := [], phase2Holders := [],
        randomSeedInfo := [{ id := 1, randomSeed := 42, syncedAt := 5,
                             mappingsGenerated := true }],
        syncStatus := [] } 42 true 5 7 10 99
      = some
        { nftInfo := [{ tokenId := 1, metadataId := some 8, userAddress := "0xA",
                        boxTypeId := 1, originId := 0, createdAt := 0 }],
          originMetadataInfo := [], unrevealMetadataInfo := [], phase2Holders := [],
          randomSeedInfo := [{ id := 1, randomSeed := 42, syncedAt := 5,
                               mappingsGenerated := true }],
          syncStatus := [] } :=
  forceCheck_rerun_noop
    { nftInfo := [{ tokenId := 1, metadataId := none, userAddress := "0xA",
                    boxTypeId := 1, originId := 0, createdAt := 0 }],
      originMetadataInfo := [], unrevealMetadataInfo := [], phase2Holders := [],
      randomSeedInfo := [], syncStatus := [] }
    { nftInfo := [{ tokenId := 1, metadataId := some 8, userAddress := "0xA",
                    boxTypeId := 1, originId := 0, createdAt := 0 }],
      originMetadataInfo := [], unrevealMetadataInfo := [], phase2Holders := [],
      randomSeedInfo := [{ id := 1, randomSeed := 42, syncedAt := 5,
                           mappingsGenerated := true }],
      syncStatus := [] }
    42 true 5 7 10 5 99 (by decide)

/-! ## Phase2 bulk add — `POST /admin/batch-phase2-holders`
(`src/src/routes/admin.ts`, lines 424–451) and
`MetadataService.addPhase2Holder` (`src/src/services/metadata.ts`,
lines 97–106) -/

/-- One element of the request's `holders` array; absent JSON fields are
`none`. -/
structure BatchHolderEntry where
  userAddress : Option String
  boxTypeId : Option Nat
  tokenId : Option Nat
deriving Repr, DecidableEq

/-- The route's per-item guard `holder.userAddress && holder.boxTypeId !==
undefined && holder.tokenId !== undefined` (an empty address string is
falsy), yielding the data passed to `addPhase2Holder` when it holds. -/
def entryData (e : BatchHolderEntry) : Option (String × Nat × Nat) :=
  match e.userAddress, e.boxTypeId, e.tokenId with
  | some u, some b, some t => if u = "" then none else some (u, b, t)
  | _, _, _ => none

/-- `MetadataService.addPhase2Holder`: `prisma.phase2Holders.create({ data:
{ id: tokenId, userAddress, boxTypeId } })`; fails (unique-key violation on
the primary key `id`) when a holder row with this id already exists. -/
def addPhase2Holder (db : Db) (userAddress : String) (boxTypeId tokenId : Nat) :
    Option Db :=
  if db.phase2Holders.any (fun h => h.id == tokenId) then none
  else some { db with phase2Holders := db.phase2Holders ++
      [{ id := tokenId, userAddress := userAddress, boxTypeId := boxTypeId,
         signature := none }] }

/-- The `for (const holder of holders)` loop of the batch route.  The whole
loop sits in one `try/catch`: a throwing `addPhase2Holder` aborts the
remainder of the batch with a 500 response (`.error ()`), while
already-committed creates persist. -/
def batchGo (db : Db) (added : Nat) : List BatchHolderEntry → Db × Except Unit Nat
  | [] => (db, .ok added)
  | e :: rest =>
    match entryData e with
    | none => batchGo db added rest
    | some (u, b, t) =>
      match addPhase2Holder db u b t with
      | some db' => batchGo db' (added + 1) rest
      | none => (db, .error ())

/-- `POST /admin/batch-phase2-holders`: run the loop and report the number
of added holders. -/
def batchPhase2Holders (db : Db) (holders : List BatchHolderEntry) :
    Db × Except Unit Nat :=
  batchGo db 0 holders

/-- Counterexample to C8 as stated: with an existing holder of id 5, a batch
of two well-formed entries `[id 5 (duplicate), id 6 (fresh)]` aborts at the
first entry's unique-key failure — the response is an error and the
perfectly valid second entry is never added, so per-item failures are not
"skipped and counted without aborting the rest of the batch". -/
theorem batchPhase2Holders_abort_counterexample :
    batchPhase2Holders
      { nftInfo := [], originMetadataInfo := [], unrevealMetadataInfo := [],
        phase2Holders := [{ id := 5, userAddress := "0xE", boxTypeId := 1,
                            signature := none }],
        randomSeedInfo := [], syncStatus := [] }
      [{ userAddress := some "0xF", boxTypeId := some 2, tokenId := some 5 },
       { userAddress := some "0xG", boxTypeId := some 2, tokenId := some 6 }]
      = ({ nftInfo := [], originMetadataInfo := [], unrevealMetadataInfo := [],
           phase2Holders := [{ id := 5, userAddress := "0xE", boxTypeId := 1,
                               signature := none }],
           randomSeedInfo := [], syncStatus := [] }, .error ()) ∧
    ((batchPhase2Holders
      { nftInfo := [], originMetadataInfo := [], unrevealMetadataInfo := [],
        phase2Holders := [{ id := 5, userAddress := "0xE", boxTypeId := 1,
                            signature := none }],
        randomSeedInfo := [], syncStatus := [] }
      [{ userAddress := some "0xF", boxTypeId := some 2, tokenId := some 5 },
       { userAddress := some "0xG", boxTypeId := some 2, tokenId := some 6 }]).1.phase2Holders.any
      (fun h => h.id == 6)) = false := by
  exact ⟨rfl, rfl⟩

/-- Claim C8 (amended: the batch is fault-tolerant only towards malformed
entries — entries missing a required field or with an empty address are
skipped without aborting and without being counted; but a well-formed
entry whose insert fails, e.g. on a duplicate tokenId, aborts the rest of
the batch with an error response instead of being skipped and counted):
when every well-formed entry carries a fresh, pairwise-distinct tokenId,
the batch adds exactly the well-formed entries, in order, and reports
their count. -/
theorem batchPhase2Holders_amended (db : Db) (holders : List BatchHolderEntry)
    (hnodup : ((holders.filterMap entryData).map (fun x => x.2.2)).Nodup)
    (hfresh : ∀ x ∈ holders.filterMap entryData, ∀ h ∈ db.phase2Holders, h.id ≠ x.2.2) :
    batchPhase2Holders db holders =
      ({ db with phase2Holders := db.phase2Holders ++
          (holders.filterMap entryData).map (fun x =>
            { id := x.2.2, userAddress := x.1, boxTypeId := x.2.1,
              signature := none }) },
       .ok (holders.filterMap entryData).length) := by
  suffices hgen : ∀ (hl : List BatchHolderEntry) (db0 : Db) (added : Nat),
      ((hl.filterMap entryData).map (fun x => x.2.2)).Nodup →
      (∀ x ∈ hl.filterMap entryData, ∀ h ∈ db0.phase2Holders, h.id ≠ x.2.2) →
      batchGo db0 added hl =
        ({ db0 with phase2Holders := db0.phase2Holders ++
            (hl.filterMap entryData).map (fun x =>
              { id := x.2.2, userAddress := x.1, boxTypeId := x.2.1,
                signature := none }) },
         .ok (added + (hl.filterMap entryData).length)) by
    have := hgen holders db 0 hnodup hfresh
    rw [batchPhase2Holders, this]
    simp
  intro hl
  induction hl with
  | nil =>
    intro db0 added _ _
    simp [batchGo]
  | cons e rest ih =>
    intro db0 added hnd hfr
    cases hde : entryData e with
    | none =>
      rw [batchGo, hde,
        ih db0 added (by rwa [List.filterMap_cons_none hde] at hnd)
          (by rw [List.filterMap_cons_none hde] at hfr; exact hfr),
        List.filterMap_cons_none hde]
    | some ubt =>
      obtain ⟨u, b, t⟩ := ubt
      have hmem : (u, b, t) ∈ (e :: rest).filterMap entryData := by
        rw [List.filterMap_cons_some hde]
        exact List.mem_cons_self _ _
      have hnew : db0.phase2Holders.any (fun h => h.id == t) = false := by
        rw [List.any_eq_false]
        intro h hh
        simp only [beq_iff_eq]
        exact fun he => hfr (u, b, t) hmem h hh he
      rw [batchGo, hde]
      simp only [addPhase2Holder, if_neg (show ¬(db0.phase2Holders.any (fun h => h.id == t) = true) from by rw [hnew]; simp)]
      rw [List.filterMap_cons_some hde] at hnd hfr ⊢
      have hnd' : ((rest.filterMap entryData).map (fun x => x.2.2)).Nodup := by
        rw [List.map_cons] at hnd
        exact hnd.of_cons
      have hhead : ∀ y ∈ rest.filterMap entryData, t ≠ y.2.2 := by
        intro y hy hty
        rw [List.map_cons, List.nodup_cons] at hnd
        exact hnd.1 (hty ▸ List.mem_map_of_mem (fun x => x.2.2) hy)
      have hfr' : ∀ x ∈ rest.filterMap entryData,
          ∀ h ∈ db0.phase2Holders ++ [({ id := t, userAddress := u, boxTypeId := b, signature := none } : Phase2Holder)],
          h.id ≠ x.2.2 := by
        intro x hx h hh
        rcases List.mem_append.mp hh with hh0 | hh1
        · exact hfr x (List.mem_cons_of_mem _ hx) h hh0
        · rw [List.mem_singleton.mp hh1]
          exact fun he => hhead x hx he
      rw [ih { db0 with phase2Holders := db0.phase2Holders ++ [{ id := t, userAddress := u, boxTypeId := b, signature := none }] } (added + 1) hnd' hfr']
      simp only [List.map_cons, List.length_cons]
      rw [Prod.mk.injEq]
      refine ⟨?_, ?_⟩
      · rw [List.append_assoc]
        rfl
      · congr 1
        omega

/-- Witness for C8 (amended): a batch of one well-formed and one malformed
entry on an empty table adds the well-formed one and reports a count of 1,
skipping the malformed entry without aborting. -/
theorem batchPhase2Holders_amended_witness :
    batchPhase2Holders
      { nftInfo := [], originMetadataInfo := [], unrevealMetadataInfo := [],
        phase2Holders := [], randomSeedInfo := [], syncStatus := [] }
      [{ userAddress := some "0xA", boxTypeId := some 1, tokenId := some 5 },
       { userAddress := none, boxTypeId := some 1, tokenId := some 9 }]
      = ({ nftInfo := [], originMetadataInfo := [], unrevealMetadataInfo := [],
           phase2Holders := [{ id := 5, userAddress := "0xA", boxTypeId := 1,
                               signature := none }],
           randomSeedInfo := [], syncStatus := [] }, Except.ok 1) :=
  (batchPhase2Holders_amended
    { nftInfo := [], originMetadataInfo := [], unrevealMetadataInfo := [],
      phase2Holders := [], randomSeedInfo := [], syncStatus := [] }
    [{ userAddress := some "0xA", boxTypeId := some 1, tokenId := some 5 },
     { userAddress := none, boxTypeId := some 1, tokenId := some 9 }]
    (by decide) (by decide)).trans (by decide)

end RogMetadata
